import Mathlib

/-!
Verification of the gesture-to-transform and model-normalization logic of the
ALI2025 anatomy-viewer application.

Embedding conventions:
* JavaScript numbers are modelled as exact rationals (`ℚ`).  The one place
  where IEEE non-finiteness is observable — the division `2 / maxDim` in
  `normalizeModel` when `maxDim = 0`, which yields `Infinity` in JavaScript —
  is modelled explicitly by the `nonfiniteScale` outcome below instead of
  silently using the rational convention `2 / 0 = 0`.
* `THREE.Box3` is modelled by its `min`/`max` corners; `getSize` and
  `getCenter` follow the three.js sources, which return the zero vector for an
  empty box (one whose `max` is below its `min` in some component).
* The touch-event handlers (`onPanResponderGrant` / `Move` / `Release`) become
  a step function on an explicit state record; a touch event carries the
  values the handler actually reads (the inter-touch distance produced by
  `getDistance` for two-finger frames, the cumulative `dx`/`dy` and the
  current clock value for one-finger frames).
* The React `useState`-backed model cache becomes explicit state passing over
  an association list whose order models JavaScript object key order
  (insertion order, updates in place).
-/

namespace ALI

/-- `Math.max` on two numbers. -/
def jsMax (a b : ℚ) : ℚ := if a ≤ b then b else a

/-- `Math.min` on two numbers. -/
def jsMin (a b : ℚ) : ℚ := if a ≤ b then a else b

/-- `Math.abs`. -/
def jsAbs (a : ℚ) : ℚ := if a < 0 then -a else a

/-- A 2-component vector (`{x, y}` records used for the position and rotation
refs and cumulative gesture deltas). -/
structure Vec2 where
  x : ℚ
  y : ℚ
  deriving DecidableEq, Repr

/-- A 3-component vector (`THREE.Vector3`). -/
structure Vec3 where
  x : ℚ
  y : ℚ
  z : ℚ
  deriving DecidableEq, Repr

/-- An axis-aligned bounding box (`THREE.Box3`), given by its corners. -/
structure Box3 where
  boxMin : Vec3
  boxMax : Vec3
  deriving DecidableEq, Repr

/-- `THREE.Box3.isEmpty`: the box is empty when `max` is below `min` in some
component. -/
def Box3.isEmpty (b : Box3) : Bool :=
  decide (b.boxMax.x < b.boxMin.x) || decide (b.boxMax.y < b.boxMin.y) ||
    decide (b.boxMax.z < b.boxMin.z)

/-- `THREE.Box3.getSize`: `max - min` componentwise, or the zero vector for an
empty box. -/
def Box3.getSize (b : Box3) : Vec3 :=
  if b.isEmpty then ⟨0, 0, 0⟩
  else ⟨b.boxMax.x - b.boxMin.x, b.boxMax.y - b.boxMin.y, b.boxMax.z - b.boxMin.z⟩

/-- `THREE.Box3.getCenter`: the midpoint of the corners, or the zero vector
for an empty box. -/
def Box3.getCenter (b : Box3) : Vec3 :=
  if b.isEmpty then ⟨0, 0, 0⟩
  else ⟨(b.boxMin.x + b.boxMax.x) / 2, (b.boxMin.y + b.boxMax.y) / 2,
    (b.boxMin.z + b.boxMax.z) / 2⟩

/-- `Math.max(size.x, size.y, size.z)` over the box size, as computed in
`normalizeModel`. -/
def Box3.maxDim (b : Box3) : ℚ :=
  jsMax (jsMax b.getSize.x b.getSize.y) b.getSize.z

/-- Scaling a box by a uniform object scale factor: the bounding box that
`Box3.setFromObject` recomputes for an object scaled by `s` (with its position
at the origin) has both corners multiplied by `s`. -/
def scaleBox (s : ℚ) (b : Box3) : Box3 :=
  ⟨⟨s * b.boxMin.x, s * b.boxMin.y, s * b.boxMin.z⟩,
   ⟨s * b.boxMax.x, s * b.boxMax.y, s * b.boxMax.z⟩⟩

/-- Translating a box: the bounding box of an object translated by `p`. -/
def translateBox (p : Vec3) (b : Box3) : Box3 :=
  ⟨⟨b.boxMin.x + p.x, b.boxMin.y + p.y, b.boxMin.z + p.z⟩,
   ⟨b.boxMax.x + p.x, b.boxMax.y + p.y, b.boxMax.z + p.z⟩⟩

/-- The target normalized size: the hard-coded `2` in `const scale = 2 / maxDim`. -/
def targetSize : ℚ := 2

/-- The data `normalizeModel` computes on its non-degenerate path: the uniform
`scale`, the recomputed (post-scaling) bounding box and its `center`, and the
centering `position` `(-center.x, -center.y, -center.z)` assigned to the model. -/
structure NormResult where
  scale : ℚ
  scaledBox : Box3
  center : Vec3
  position : Vec3
  deriving DecidableEq, Repr

/-- Possible outcomes of `normalizeModel`.  The source never throws: the
`degenerateGeometryError` constructor exists only so that the spec's claimed
failure mode is expressible; `nonfiniteScale` is the outcome actually reached
when `maxDim = 0`, where the JavaScript division `2 / maxDim` produces
`Infinity` and every downstream quantity is non-finite. -/
inductive NormOutcome where
  | ok (r : NormResult)
  | nonfiniteScale
  | degenerateGeometryError
  deriving DecidableEq, Repr

/-- `normalizeModel` (ARScreen.tsx lines 96-133 / part_005 lines 123-161),
applied to the bounding box `b` of the freshly loaded object (position reset
to the origin, unit scale).  It computes `maxDim`, divides `targetSize` by it
unconditionally, rescales, recomputes the box and its center, and moves the
object by the negated center.  There is no guard on `maxDim`. -/
def normalizeModel (b : Box3) : NormOutcome :=
  let size := b.getSize
  let maxDim := jsMax (jsMax size.x size.y) size.z
  if maxDim = 0 then
    NormOutcome.nonfiniteScale
  else
    let scale := targetSize / maxDim
    let box2 := scaleBox scale b
    let center := box2.getCenter
    NormOutcome.ok ⟨scale, box2, center, ⟨-center.x, -center.y, -center.z⟩⟩

/-- The bounding box of the spec's example model: size `(4, 2, 8)`. -/
def demoBox : Box3 := ⟨⟨0, 0, 0⟩, ⟨4, 2, 8⟩⟩

/-- A zero-extent (degenerate) bounding box. -/
def degenerateBox : Box3 := ⟨⟨0, 0, 0⟩, ⟨0, 0, 0⟩⟩

/-- The single-finger gesture mode held in `gestureRef.current.mode`
(the strings `'none'`, `'rotate'`, `'pan'`). -/
inductive Mode where
  | off
  | rotate
  | pan
  deriving DecidableEq, Repr

/-- A touch event, carrying the values the `PanResponder` handlers read:
the inter-touch distance computed by `getDistance` for two-finger frames,
the cumulative `gestureState.dx`/`dy` and the current `Date.now()` clock
value for one-finger frames. -/
inductive TouchEvt where
  | grant2 (d : ℚ)
  | grant1 (now : ℚ)
  | move2 (d : ℚ)
  | move1 (dx dy now : ℚ)
  | release
  deriving DecidableEq, Repr

namespace ARScreen

/-- `zoomRef.current` in ARScreen.tsx: `{ scale, lastDistance }`. -/
structure ZoomState where
  scale : ℚ
  lastDistance : ℚ
  deriving DecidableEq, Repr

/-- `gestureRef.current` in ARScreen.tsx: `{ mode, initialTouchTime }`. -/
structure GestureState where
  mode : Mode
  initialTouchTime : ℚ
  deriving DecidableEq, Repr

/-- The mutable refs the ARScreen.tsx pan responder reads and writes:
`zoomRef`, `positionRef`, `rotationRef`, `gestureRef`. -/
structure State where
  zoom : ZoomState
  positionRef : Vec2
  rotationRef : Vec2
  gesture : GestureState
  deriving DecidableEq, Repr

/-- The two-finger branch of `onPanResponderMove` (ARScreen.tsx lines
164-198): when `lastDistance > 0`, multiply the scale by
`1 + distanceChange * 0.003` and clamp with
`Math.max(0.2, Math.min(3.0, newScale))`; always store the current
distance. -/
def moveTwoFingers (s : State) (d : ℚ) : State :=
  let z := s.zoom
  let z1 :=
    if 0 < z.lastDistance then
      let distanceChange := d - z.lastDistance
      let scaleFactor := 1 + distanceChange * (3 / 1000)
      let newScale := z.scale * scaleFactor
      { z with scale := jsMax (1 / 5) (jsMin 3 newScale) }
    else z
  { s with zoom := { z1 with lastDistance := d } }

/-- The mode-resolution rule in the one-finger branch of
`onPanResponderMove` (ARScreen.tsx lines 206-217): an undecided mode
becomes `rotate` when `moveTime < 150` or the movement is diagonal
(`|dx| > 5 && |dy| > 5`), and `pan` otherwise; a decided mode is kept. -/
def resolveMode (g : GestureState) (dx dy now : ℚ) : Mode :=
  if g.mode = Mode.off then
    if now - g.initialTouchTime < 150 ∨ (5 < jsAbs dx ∧ 5 < jsAbs dy) then Mode.rotate
    else Mode.pan
  else g.mode

/-- The one-finger branch of `onPanResponderMove` (ARScreen.tsx lines
200-269): resolve the mode, then either accumulate rotation
(`rotation.y += dx * 0.003`, `rotation.x += dy * 0.003`) or pan with the
`0.002` sensitivity, inverted y, and the `±2.0` position limit. -/
def moveOneFinger (s : State) (dx dy now : ℚ) : State :=
  let m := resolveMode s.gesture dx dy now
  let s1 := { s with gesture := { s.gesture with mode := m } }
  match m with
  | Mode.rotate =>
      { s1 with rotationRef :=
          ⟨s1.rotationRef.x + dy * (3 / 1000), s1.rotationRef.y + dx * (3 / 1000)⟩ }
  | Mode.pan =>
      let newPosX := s1.positionRef.x + dx * (1 / 500)
      let newPosY := s1.positionRef.y - dy * (1 / 500)
      { s1 with positionRef :=
          ⟨jsMax (-2) (jsMin 2 newPosX), jsMax (-2) (jsMin 2 newPosY)⟩ }
  | Mode.off => s1

/-- The full pan-responder step of ARScreen.tsx: `onPanResponderGrant`
(initialize `lastDistance` on a two-finger grant, reset the mode and record
the start time on a one-finger grant), `onPanResponderMove` dispatched on the
touch count, and `onPanResponderRelease` (reset `lastDistance` to `0` and the
mode to `'none'`). -/
def step (s : State) : TouchEvt → State
  | TouchEvt.grant2 d => { s with zoom := { s.zoom with lastDistance := d } }
  | TouchEvt.grant1 now => { s with gesture := ⟨Mode.off, now⟩ }
  | TouchEvt.move2 d => moveTwoFingers s d
  | TouchEvt.move1 dx dy now => moveOneFinger s dx dy now
  | TouchEvt.release =>
      { s with zoom := { s.zoom with lastDistance := 0 },
               gesture := { s.gesture with mode := Mode.off } }

/-- Running a sequence of touch events. -/
def run (s : State) (evs : List TouchEvt) : State := evs.foldl step s

end ARScreen

namespace Part005

/-- `zoomRef.current` in part_005: `{ scale, lastDistance, initialScale }`,
where `initialScale` is the baseline recorded by `normalizeModel`. -/
structure ZoomState where
  scale : ℚ
  lastDistance : ℚ
  initialScale : ℚ
  deriving DecidableEq, Repr

/-- The zoom-reference update performed by `normalizeModel` in part_005
(lines 137-138): both `scale` and `initialScale` are set to the computed
normalization scale; `lastDistance` is not touched. -/
def applyNormalize (r : NormResult) (z : ZoomState) : ZoomState :=
  { z with scale := r.scale, initialScale := r.scale }

/-- The two-finger zoom update of part_005 `onPanResponderMove` (lines
192-228): when `lastDistance > 0`, multiply the scale by
`1 + distanceChange * 0.003` and clamp with
`Math.max(minScale, Math.min(3.0, newScale))` where
`minScale = initialScale * 0.2`; always store the current distance. -/
def pinchMove (z : ZoomState) (d : ℚ) : ZoomState :=
  let z1 :=
    if 0 < z.lastDistance then
      let distanceChange := d - z.lastDistance
      let scaleFactor := 1 + distanceChange * (3 / 1000)
      let newScale := z.scale * scaleFactor
      let minScale := z.initialScale * (1 / 5)
      { z with scale := jsMax minScale (jsMin 3 newScale) }
    else z
  { z1 with lastDistance := d }

/-- The state handled by the part_005 screen: the mutable refs (`zoomRef`,
`positionRef`, `rotationRef`, `gestureRef`) together with the transform of
`modelRef.current.scene` that the handlers write. -/
structure State where
  zoom : ZoomState
  positionRef : Vec2
  rotationRef : Vec2
  mode : Mode
  initialTouchTime : ℚ
  modelPosition : Vec3
  modelRotation : Vec3
  modelScale : ℚ
  deriving DecidableEq, Repr

/-- The mode-resolution rule of part_005 (lines 237-247), identical to the
ARScreen one. -/
def resolveMode (s : State) (dx dy now : ℚ) : Mode :=
  if s.mode = Mode.off then
    if now - s.initialTouchTime < 150 ∨ (5 < jsAbs dx ∧ 5 < jsAbs dy) then Mode.rotate
    else Mode.pan
  else s.mode

/-- The one-finger branch of part_005 `onPanResponderMove` (lines 230-299):
resolve the mode, then rotate (`rotation.y += dx * 0.003`,
`rotation.x += dy * 0.003`, mirrored onto the model scene) or pan (the
`0.002` sensitivity, inverted y, `±2.0` limit, mirrored onto the model
scene's x/y position). -/
def moveOneFinger (s : State) (dx dy now : ℚ) : State :=
  let m := resolveMode s dx dy now
  let s1 := { s with mode := m }
  match m with
  | Mode.rotate =>
      let rot : Vec2 :=
        ⟨s1.rotationRef.x + dy * (3 / 1000), s1.rotationRef.y + dx * (3 / 1000)⟩
      { s1 with rotationRef := rot,
                modelRotation := ⟨rot.x, rot.y, s1.modelRotation.z⟩ }
  | Mode.pan =>
      let newPosX := s1.positionRef.x + dx * (1 / 500)
      let newPosY := s1.positionRef.y - dy * (1 / 500)
      let pos : Vec2 := ⟨jsMax (-2) (jsMin 2 newPosX), jsMax (-2) (jsMin 2 newPosY)⟩
      { s1 with positionRef := pos,
                modelPosition := ⟨pos.x, pos.y, s1.modelPosition.z⟩ }
  | Mode.off => s1

/-- The full pan-responder step of part_005, with the two-finger move also
mirroring the clamped scale onto the model scene. -/
def step (s : State) : TouchEvt → State
  | TouchEvt.grant2 d => { s with zoom := { s.zoom with lastDistance := d } }
  | TouchEvt.grant1 now => { s with mode := Mode.off, initialTouchTime := now }
  | TouchEvt.move2 d =>
      let z := pinchMove s.zoom d
      { s with zoom := z,
               modelScale := if 0 < s.zoom.lastDistance then z.scale else s.modelScale }
  | TouchEvt.move1 dx dy now => moveOneFinger s dx dy now
  | TouchEvt.release =>
      { s with zoom := { s.zoom with lastDistance := 0 }, mode := Mode.off }

/-- Running a sequence of touch events. -/
def run (s : State) (evs : List TouchEvt) : State := evs.foldl step s

/-- `resetModelTransform` (part_005 lines 864-907): reset the model position
and rotation to zero, restore `zoomRef` to
`{ scale: initialScale, lastDistance: 0, initialScale }`, apply `initialScale`
to the model, and zero the position and rotation refs.  The gesture mode and
start time are not touched. -/
def resetModelTransform (s : State) : State :=
  let initial := s.zoom.initialScale
  { s with
    modelPosition := ⟨0, 0, 0⟩,
    modelRotation := ⟨0, 0, 0⟩,
    zoom := ⟨initial, 0, initial⟩,
    modelScale := initial,
    positionRef := ⟨0, 0⟩,
    rotationRef := ⟨0, 0⟩ }

/-- The components of the state that `resetModelTransform` canonicalizes:
model position, model rotation, model scale, the pan and rotation
accumulators, and the zoom reference. -/
def canonicalPart (s : State) : Vec3 × Vec3 × ℚ × Vec2 × Vec2 × ZoomState :=
  (s.modelPosition, s.modelRotation, s.modelScale, s.positionRef,
    s.rotationRef, s.zoom)

end Part005

namespace ModelCache

/-- `MAX_CACHE_SIZE` in ARSelector's model-cache context. -/
def MAX_CACHE_SIZE : ℕ := 10

/-- A `ModelCacheEntry`: the downloaded bytes (abstracted to a token) and the
`lastAccessed` timestamp.  The optional `parsed` field plays no role in the
size management and is omitted. -/
structure Entry where
  data : ℕ
  lastAccessed : ℕ
  deriving DecidableEq, Repr

/-- The cache object, as an association list in JavaScript key order
(insertion order; in-place updates keep a key's position). -/
abbrev Cache := List (String × Entry)

/-- `modelCache[url]` lookup. -/
def lookupEntry : Cache → String → Option Entry
  | [], _ => Option.none
  | (k, e) :: rest, url => if k = url then some e else lookupEntry rest url

/-- The functional-update write that refreshes `lastAccessed` for an existing
key (the spread `{ ...prev, [url]: { ...prev[url], lastAccessed: now } }`,
which keeps the key's position). -/
def touchEntry : Cache → String → ℕ → Cache
  | [], _, _ => []
  | (k, e) :: rest, url, now =>
      if k = url then (k, { e with lastAccessed := now }) :: rest
      else (k, e) :: touchEntry rest url now

/-- `cacheEntries.sort((a, b) => a.lastAccessed - b.lastAccessed)` followed by
taking `cacheEntries[0]`: since the sort is stable, this is the first entry
(in key order) with the minimal `lastAccessed`.  Returns the whole entry. -/
def oldestEntry : Cache → Option (String × Entry)
  | [] => Option.none
  | p :: rest =>
      some (rest.foldl
        (fun best q => if q.2.lastAccessed < best.2.lastAccessed then q else best) p)

/-- `delete newCache[key]` for the (unique) occurrence of a key. -/
def eraseKey : Cache → String → Cache
  | [], _ => []
  | (k, e) :: rest, url => if k = url then rest else (k, e) :: eraseKey rest url

/-- `manageCacheSize` (ARSelector model-cache context, lines 263-280): do
nothing while the cache holds fewer than `MAX_CACHE_SIZE` entries; otherwise
remove the entry with the oldest `lastAccessed`. -/
def manageCacheSize (c : Cache) : Cache :=
  if List.length c < MAX_CACHE_SIZE then c
  else
    match oldestEntry c with
    | some p => eraseKey c p.1
    | Option.none => c

/-- `getModelData` (lines 184-225), with the download modelled as producing
the token `data` at clock `now`: a cache hit refreshes `lastAccessed` and
returns the cached bytes; a miss runs `manageCacheSize` and then inserts the
new entry.  Returns the updated cache and the returned bytes. -/
def getModelData (url : String) (now : ℕ) (data : ℕ) (c : Cache) : Cache × ℕ :=
  match lookupEntry c url with
  | some e => (touchEntry c url now, e.data)
  | Option.none => (manageCacheSize c ++ [(url, ⟨data, now⟩)], data)

end ModelCache

/-- The record `normalizeModel` builds on its non-degenerate path, written
out as a function of the input box. -/
def normResultOf (b : Box3) : NormResult :=
  ⟨targetSize / b.maxDim, scaleBox (targetSize / b.maxDim) b,
    (scaleBox (targetSize / b.maxDim) b).getCenter,
    ⟨-((scaleBox (targetSize / b.maxDim) b).getCenter).x,
     -((scaleBox (targetSize / b.maxDim) b).getCenter).y,
     -((scaleBox (targetSize / b.maxDim) b).getCenter).z⟩⟩

/-! ## Helper lemmas -/

theorem jsMax_eq_max (a b : ℚ) : jsMax a b = max a b := by
  simp [jsMax, max_def]

theorem jsMin_eq_min (a b : ℚ) : jsMin a b = min a b := by
  simp [jsMin, min_def]

theorem isEmpty_eq_false_iff (b : Box3) :
    b.isEmpty = false ↔
      b.boxMin.x ≤ b.boxMax.x ∧ b.boxMin.y ≤ b.boxMax.y ∧ b.boxMin.z ≤ b.boxMax.z := by
  simp [Box3.isEmpty, not_lt, and_assoc]

theorem maxDim_nonneg (b : Box3) : 0 ≤ b.maxDim := by
  by_cases h : b.isEmpty
  · simp [Box3.maxDim, Box3.getSize, h, jsMax]
  · rw [Bool.not_eq_true] at h
    rcases (isEmpty_eq_false_iff b).mp h with ⟨hx, hy, hz⟩
    have h0 : (0 : ℚ) ≤ b.boxMax.z - b.boxMin.z := by linarith
    simp only [Box3.maxDim, Box3.getSize, h, if_neg Bool.false_ne_true,
      jsMax_eq_max]
    exact le_max_of_le_right h0

theorem normalizeModel_eq (b : Box3) :
    normalizeModel b =
      if b.maxDim = 0 then NormOutcome.nonfiniteScale
      else NormOutcome.ok (normResultOf b) := by
  rfl

theorem scaleBox_isEmpty_false (s : ℚ) (b : Box3) (hs : 0 ≤ s)
    (hb : b.isEmpty = false) : (scaleBox s b).isEmpty = false := by
  rcases (isEmpty_eq_false_iff b).mp hb with ⟨hx, hy, hz⟩
  refine (isEmpty_eq_false_iff _).mpr ⟨?_, ?_, ?_⟩ <;>
    simp only [scaleBox] <;> nlinarith

theorem center_translate_neg_center (bb : Box3) (hb : bb.isEmpty = false) :
    Box3.getCenter
      (translateBox ⟨-bb.getCenter.x, -bb.getCenter.y, -bb.getCenter.z⟩ bb) =
      ⟨0, 0, 0⟩ := by
  rcases (isEmpty_eq_false_iff bb).mp hb with ⟨hx, hy, hz⟩
  have hb' : (translateBox ⟨-bb.getCenter.x, -bb.getCenter.y, -bb.getCenter.z⟩ bb).isEmpty
      = false := by
    refine (isEmpty_eq_false_iff _).mpr ⟨?_, ?_, ?_⟩ <;>
      simp only [translateBox] <;> linarith
  simp only [Box3.getCenter, translateBox, hb, Bool.false_eq_true, if_false] at hb' ⊢
  simp only [hb', Bool.false_eq_true, if_false, Vec3.mk.injEq]
  refine ⟨by ring, by ring, by ring⟩

theorem maxDim_demoBox : Box3.maxDim demoBox = 8 := by
  norm_num [Box3.maxDim, Box3.getSize, Box3.isEmpty, jsMax, demoBox]

theorem maxDim_degenerateBox : Box3.maxDim degenerateBox = 0 := by
  norm_num [Box3.maxDim, Box3.getSize, Box3.isEmpty, jsMax, degenerateBox]

/-! ## Claims about `normalizeModel` (C1, C5, C6) -/

/-- C1 (counterexample): on the zero-extent bounding box, `maxDim ≤ 0`
holds, yet `normalizeModel` does not fail with `DegenerateGeometryError`:
the source has no such guard, and the division `2 / maxDim` is performed,
yielding a non-finite scale. -/
theorem normalizeModel_degenerate_no_error :
    Box3.maxDim degenerateBox ≤ 0 ∧
      normalizeModel degenerateBox ≠ NormOutcome.degenerateGeometryError := by
  constructor
  · rw [maxDim_degenerateBox]
  · rw [normalizeModel_eq, if_pos maxDim_degenerateBox]
    intro h
    cases h

/-- C1 (amended): `normalizeModel` never reports a `DegenerateGeometryError`
for any bounding box; on a box with `maxDim ≤ 0` it performs the division
`targetSize / maxDim` anyway and returns normally with a non-finite
(`Infinity`) scale. -/
theorem normalizeModel_never_errors (b : Box3) :
    normalizeModel b ≠ NormOutcome.degenerateGeometryError ∧
      (b.maxDim ≤ 0 → normalizeModel b = NormOutcome.nonfiniteScale) := by
  have hzero : b.maxDim ≤ 0 → b.maxDim = 0 := fun hle =>
    le_antisymm hle (maxDim_nonneg b)
  rw [normalizeModel_eq]
  by_cases h : b.maxDim = 0
  · simp [h]
  · refine ⟨?_, fun hle => absurd (hzero hle) h⟩
    simp [h]

/-- C1 (witness for the amended claim): the amended theorem applied to the
zero-extent box, discharging `maxDim ≤ 0` there. -/
theorem normalizeModel_never_errors_witness :
    normalizeModel degenerateBox ≠ NormOutcome.degenerateGeometryError ∧
      normalizeModel degenerateBox = NormOutcome.nonfiniteScale :=
  ⟨(normalizeModel_never_errors degenerateBox).1,
    (normalizeModel_never_errors degenerateBox).2 (le_of_eq maxDim_degenerateBox)⟩

/-- C5: for every bounding box with `maxDim > 0`, `normalizeModel` succeeds
with `scale = targetSize / maxDim`, so the longest dimension times the
returned scale equals `targetSize`. -/
theorem normalizeModel_scale_fits (b : Box3) (h : 0 < b.maxDim) :
    ∃ r, normalizeModel b = NormOutcome.ok r ∧
      r.scale = targetSize / b.maxDim ∧ b.maxDim * r.scale = targetSize := by
  have hne : b.maxDim ≠ 0 := ne_of_gt h
  rw [normalizeModel_eq, if_neg hne]
  exact ⟨_, rfl, rfl, mul_div_cancel₀ targetSize hne⟩

/-- C5 (witness): on the box of size `(4, 2, 8)` with `targetSize = 2`,
`maxDim = 8` and the computed scale is `1/4 = 0.25`. -/
theorem normalizeModel_scale_fits_witness :
    normalizeModel demoBox = NormOutcome.ok (normResultOf demoBox) ∧
      Box3.maxDim demoBox = 8 ∧ (normResultOf demoBox).scale = 1 / 4 := by
  have h : (0 : ℚ) < Box3.maxDim demoBox := by rw [maxDim_demoBox]; norm_num
  obtain ⟨r, hok, hsc, hfit⟩ := normalizeModel_scale_fits demoBox h
  have hok' : normalizeModel demoBox = NormOutcome.ok (normResultOf demoBox) := by
    rw [normalizeModel_eq, if_neg (ne_of_gt h)]
  have hrd : r = normResultOf demoBox := NormOutcome.ok.inj (hok.symm.trans hok')
  refine ⟨hok', maxDim_demoBox, ?_⟩
  rw [hrd] at hfit
  rw [maxDim_demoBox] at hfit
  have h2 : targetSize = (2 : ℚ) := rfl
  rw [h2] at hfit
  linarith

/-- C6: for every bounding box with `maxDim > 0`, the center of the scaled
box translated by the returned position (the negated center) is the origin. -/
theorem normalizeModel_centers_at_origin (b : Box3) (h : 0 < b.maxDim)
    (r : NormResult) (hr : normalizeModel b = NormOutcome.ok r) :
    Box3.getCenter (translateBox r.position r.scaledBox) = ⟨0, 0, 0⟩ := by
  have hne : b.maxDim ≠ 0 := ne_of_gt h
  rw [normalizeModel_eq, if_neg hne] at hr
  have hb : b.isEmpty = false := by
    rw [Bool.eq_false_iff]
    intro hemp
    exact hne (by simp [Box3.maxDim, Box3.getSize, hemp, jsMax])
  have hs : 0 ≤ targetSize / b.maxDim := by
    have h2 : (0 : ℚ) < targetSize := by norm_num [targetSize]
    positivity
  have hsc : (scaleBox (targetSize / b.maxDim) b).isEmpty = false :=
    scaleBox_isEmpty_false _ b hs hb
  cases NormOutcome.ok.inj hr
  exact center_translate_neg_center _ hsc

/-- C6 (witness): the theorem applied to the `(4, 2, 8)` box and the
normalization result computed there. -/
theorem normalizeModel_centers_at_origin_witness :
    Box3.getCenter
      (translateBox (normResultOf demoBox).position (normResultOf demoBox).scaledBox) =
      ⟨0, 0, 0⟩ := by
  have h : (0 : ℚ) < Box3.maxDim demoBox := by rw [maxDim_demoBox]; norm_num
  exact normalizeModel_centers_at_origin demoBox h (normResultOf demoBox)
    (by rw [normalizeModel_eq, if_neg (ne_of_gt h)])

/-! ## Claims about the ARScreen gesture interpreter (C2, C3, C4, C7) -/

theorem step_scale_bounds (s : ARScreen.State) (e : TouchEvt)
    (h1 : 1 / 5 ≤ s.zoom.scale) (h2 : s.zoom.scale ≤ 3) :
    1 / 5 ≤ (ARScreen.step s e).zoom.scale ∧ (ARScreen.step s e).zoom.scale ≤ 3 := by
  cases e with
  | grant2 d => exact ⟨h1, h2⟩
  | grant1 now => exact ⟨h1, h2⟩
  | move2 d =>
      simp only [ARScreen.step, ARScreen.moveTwoFingers]
      by_cases hd : 0 < s.zoom.lastDistance
      · simp only [if_pos hd, jsMax_eq_max, jsMin_eq_min]
        constructor
        · exact le_max_left _ _
        · exact max_le (by norm_num) (min_le_left _ _)
      · simp only [if_neg hd]
        exact ⟨h1, h2⟩
  | move1 dx dy now =>
      simp only [ARScreen.step, ARScreen.moveOneFinger]
      cases ARScreen.resolveMode s.gesture dx dy now <;> exact ⟨h1, h2⟩
  | release => exact ⟨h1, h2⟩

/-- C2: for every sequence of touch events — in particular every sequence of
two-finger pinch moves of arbitrary magnitude — a scale that starts inside
`[0.2, 3.0]` stays inside `[0.2, 3.0]` after every update: each pinch write
goes through `Math.max(0.2, Math.min(3.0, newScale))`, and no other handler
touches the scale. -/
theorem run_scale_bounds (s : ARScreen.State) (evs : List TouchEvt)
    (h1 : 1 / 5 ≤ s.zoom.scale) (h2 : s.zoom.scale ≤ 3) :
    1 / 5 ≤ (ARScreen.run s evs).zoom.scale ∧ (ARScreen.run s evs).zoom.scale ≤ 3 := by
  induction evs generalizing s with
  | nil => exact ⟨h1, h2⟩
  | cons e rest ih =>
      obtain ⟨g1, g2⟩ := step_scale_bounds s e h1 h2
      exact ih (ARScreen.step s e) g1 g2

/-- C2 (witness): from scale `1` with `lastDistance` `100`, an extreme pinch
spread to distance `10^6` followed by a snap back to distance `0` keeps the
scale inside `[0.2, 3.0]`. -/
theorem run_scale_bounds_witness :
    1 / 5 ≤ (ARScreen.run ⟨⟨1, 100⟩, ⟨0, 0⟩, ⟨0, 0⟩, ⟨Mode.off, 0⟩⟩
        [TouchEvt.move2 1000000, TouchEvt.move2 0]).zoom.scale ∧
      (ARScreen.run ⟨⟨1, 100⟩, ⟨0, 0⟩, ⟨0, 0⟩, ⟨Mode.off, 0⟩⟩
        [TouchEvt.move2 1000000, TouchEvt.move2 0]).zoom.scale ≤ 3 :=
  run_scale_bounds ⟨⟨1, 100⟩, ⟨0, 0⟩, ⟨0, 0⟩, ⟨Mode.off, 0⟩⟩
    [TouchEvt.move2 1000000, TouchEvt.move2 0] (by norm_num) (by norm_num)

/-- C3: on the first one-finger move of a session (mode still undecided), the
mode becomes `rotate` exactly when the elapsed time since touch start is
below 150 ms or the movement is diagonal (`|dx| > 5` and `|dy| > 5`), and
`pan` otherwise. -/
theorem first_move_resolves_mode (s : ARScreen.State) (dx dy now : ℚ)
    (h : s.gesture.mode = Mode.off) :
    (ARScreen.moveOneFinger s dx dy now).gesture.mode =
      if now - s.gesture.initialTouchTime < 150 ∨ (5 < jsAbs dx ∧ 5 < jsAbs dy)
      then Mode.rotate else Mode.pan := by
  simp only [ARScreen.moveOneFinger, ARScreen.resolveMode, if_pos h]
  by_cases hc : now - s.gesture.initialTouchTime < 150 ∨ (5 < jsAbs dx ∧ 5 < jsAbs dy)
  · simp [if_pos hc]
  · simp [if_neg hc]

/-- C3 (witness): with touch start at time 0, a move of `(dx, dy) = (10, 10)`
at time 100 resolves to `rotate`, and a move of `(10, 0)` at time 300
resolves to `pan`. -/
theorem first_move_resolves_mode_witness :
    (ARScreen.moveOneFinger ⟨⟨1, 0⟩, ⟨0, 0⟩, ⟨0, 0⟩, ⟨Mode.off, 0⟩⟩
        10 10 100).gesture.mode = Mode.rotate ∧
      (ARScreen.moveOneFinger ⟨⟨1, 0⟩, ⟨0, 0⟩, ⟨0, 0⟩, ⟨Mode.off, 0⟩⟩
        10 0 300).gesture.mode = Mode.pan := by
  constructor
  · rw [first_move_resolves_mode ⟨⟨1, 0⟩, ⟨0, 0⟩, ⟨0, 0⟩, ⟨Mode.off, 0⟩⟩ 10 10 100 rfl]
    norm_num [jsAbs]
  · rw [first_move_resolves_mode ⟨⟨1, 0⟩, ⟨0, 0⟩, ⟨0, 0⟩, ⟨Mode.off, 0⟩⟩ 10 0 300 rfl]
    norm_num [jsAbs]

/-- C4: within a touch session, a resolved mode is stable — no move event
(one- or two-finger) changes a mode that is already `rotate` or `pan` — and
only `onPanResponderRelease` resets it, which also sets `lastPinchDistance`
to 0. -/
theorem mode_stable_until_release (s : ARScreen.State) :
    (∀ d, (ARScreen.step s (TouchEvt.move2 d)).gesture.mode = s.gesture.mode) ∧
      (∀ dx dy now, s.gesture.mode ≠ Mode.off →
        (ARScreen.step s (TouchEvt.move1 dx dy now)).gesture.mode = s.gesture.mode) ∧
      (ARScreen.step s TouchEvt.release).gesture.mode = Mode.off ∧
      (ARScreen.step s TouchEvt.release).zoom.lastDistance = 0 := by
  refine ⟨fun d => rfl, fun dx dy now h => ?_, rfl, rfl⟩
  simp only [ARScreen.step, ARScreen.moveOneFinger, ARScreen.resolveMode, if_neg h]
  cases hm : s.gesture.mode with
  | off => exact absurd hm h
  | rotate => simp [hm]
  | pan => simp [hm]

/-- C4 (witness): in a session whose mode has resolved to `rotate`, a further
one-finger move and a two-finger move keep the mode, and release resets the
mode and `lastPinchDistance`. -/
theorem mode_stable_until_release_witness :
    (ARScreen.step ⟨⟨1, 50⟩, ⟨0, 0⟩, ⟨0, 0⟩, ⟨Mode.rotate, 0⟩⟩
        (TouchEvt.move2 80)).gesture.mode = Mode.rotate ∧
      (ARScreen.step ⟨⟨1, 50⟩, ⟨0, 0⟩, ⟨0, 0⟩, ⟨Mode.rotate, 0⟩⟩
        (TouchEvt.move1 3 0 1000)).gesture.mode = Mode.rotate ∧
      (ARScreen.step ⟨⟨1, 50⟩, ⟨0, 0⟩, ⟨0, 0⟩, ⟨Mode.rotate, 0⟩⟩
        TouchEvt.release).gesture.mode = Mode.off ∧
      (ARScreen.step ⟨⟨1, 50⟩, ⟨0, 0⟩, ⟨0, 0⟩, ⟨Mode.rotate, 0⟩⟩
        TouchEvt.release).zoom.lastDistance = 0 :=
  ⟨(mode_stable_until_release ⟨⟨1, 50⟩, ⟨0, 0⟩, ⟨0, 0⟩, ⟨Mode.rotate, 0⟩⟩).1 80,
    (mode_stable_until_release ⟨⟨1, 50⟩, ⟨0, 0⟩, ⟨0, 0⟩, ⟨Mode.rotate, 0⟩⟩).2.1
      3 0 1000 (by intro h; cases h),
    (mode_stable_until_release ⟨⟨1, 50⟩, ⟨0, 0⟩, ⟨0, 0⟩, ⟨Mode.rotate, 0⟩⟩).2.2.1,
    (mode_stable_until_release ⟨⟨1, 50⟩, ⟨0, 0⟩, ⟨0, 0⟩, ⟨Mode.rotate, 0⟩⟩).2.2.2⟩

/-- C7: with `lastPinchDistance > 0`, a two-finger move to distance `d`
multiplies the scale by `1 + (d - lastPinchDistance) * 0.003` and then
clamps; with `lastPinchDistance = 100`, scale `1.0` and `d = 130` the
updated scale is exactly `1.09`. -/
theorem pinch_update_formula (s : ARScreen.State) (d : ℚ)
    (h : 0 < s.zoom.lastDistance) :
    (ARScreen.step s (TouchEvt.move2 d)).zoom.scale =
        jsMax (1 / 5) (jsMin 3 (s.zoom.scale * (1 + (d - s.zoom.lastDistance) * (3 / 1000)))) ∧
      (s.zoom.scale = 1 → s.zoom.lastDistance = 100 → d = 130 →
        (ARScreen.step s (TouchEvt.move2 d)).zoom.scale = 109 / 100) := by
  constructor
  · simp [ARScreen.step, ARScreen.moveTwoFingers, if_pos h]
  · intro hs hl hd
    simp only [ARScreen.step, ARScreen.moveTwoFingers, if_pos h, hs, hl, hd]
    norm_num [jsMax, jsMin]

/-- C7 (witness): the theorem applied at scale `1.0`, `lastPinchDistance`
`100`, current distance `130`: the result is `1.09`. -/
theorem pinch_update_formula_witness :
    (ARScreen.step ⟨⟨1, 100⟩, ⟨0, 0⟩, ⟨0, 0⟩, ⟨Mode.off, 0⟩⟩
        (TouchEvt.move2 130)).zoom.scale = 109 / 100 :=
  (pinch_update_formula ⟨⟨1, 100⟩, ⟨0, 0⟩, ⟨0, 0⟩, ⟨Mode.off, 0⟩⟩ 130
      (by norm_num)).2 rfl rfl rfl

/-! ## Claim about the zoom baseline and clamp bounds (C8) -/

/-- C8 (counterexample): the pinch-zoom clamp bounds are not both multiples
of the normalization baseline.  If they were, doubling the baseline
(`initialScale`) together with the current scale would double the saturated
result of an extreme pinch; in the code the upper bound is the absolute
constant `3.0`, so both baselines saturate at `3.0` (`3 ≠ 2 * 3`). -/
theorem pinch_cap_not_baseline_multiple :
    ¬ ((Part005.pinchMove ⟨2, 1, 2⟩ 10000).scale =
        2 * (Part005.pinchMove ⟨1, 1, 1⟩ 10000).scale) := by
  norm_num [Part005.pinchMove, jsMax, jsMin]

/-- C8 (amended): `normalizeModel` does record its computed scale as the new
zoom baseline (part_005 sets both `zoomRef.scale` and
`zoomRef.initialScale` to it), and the pinch clamp's lower bound is the
baseline multiple `initialScale * 0.2`; the upper bound, however, is the
absolute constant `3.0`, not a multiple of the baseline (and in the
ARScreen.tsx variant both bounds are the absolute constants `0.2` and
`3.0`). -/
theorem normalize_baseline_and_clamp_bounds (b : Box3) (r : NormResult)
    (z0 z : Part005.ZoomState) (d : ℚ)
    (hok : normalizeModel b = NormOutcome.ok r) (hd : 0 < z.lastDistance) :
    (Part005.applyNormalize r z0).scale = r.scale ∧
      (Part005.applyNormalize r z0).initialScale = r.scale ∧
      z.initialScale * (1 / 5) ≤ (Part005.pinchMove z d).scale ∧
      (Part005.pinchMove z d).scale ≤ jsMax (z.initialScale * (1 / 5)) 3 := by
  refine ⟨rfl, rfl, ?_, ?_⟩
  · simp only [Part005.pinchMove, if_pos hd, jsMax_eq_max, jsMin_eq_min]
    exact le_max_left _ _
  · simp only [Part005.pinchMove, if_pos hd, jsMax_eq_max, jsMin_eq_min]
    exact max_le_max (le_refl _) (min_le_left _ _)

/-- C8 (witness): the amended theorem at the `(4, 2, 8)` demo box, a fresh
zoom state, and a pinch step from scale `1`, baseline `1`,
`lastPinchDistance = 100` to distance `130`. -/
theorem normalize_baseline_and_clamp_bounds_witness :
    (Part005.applyNormalize (normResultOf demoBox) ⟨1 / 20, 0, 1 / 20⟩).scale =
        (normResultOf demoBox).scale ∧
      (Part005.applyNormalize (normResultOf demoBox) ⟨1 / 20, 0, 1 / 20⟩).initialScale =
        (normResultOf demoBox).scale ∧
      (1 : ℚ) * (1 / 5) ≤ (Part005.pinchMove ⟨1, 100, 1⟩ 130).scale ∧
      (Part005.pinchMove ⟨1, 100, 1⟩ 130).scale ≤ jsMax ((1 : ℚ) * (1 / 5)) 3 :=
  normalize_baseline_and_clamp_bounds demoBox (normResultOf demoBox)
    ⟨1 / 20, 0, 1 / 20⟩ ⟨1, 100, 1⟩ 130
    (by rw [normalizeModel_eq, if_neg (by rw [maxDim_demoBox]; norm_num)])
    (by norm_num)

/-! ## Claim about the model cache (C9) -/

namespace ModelCache

theorem touchEntry_length (c : Cache) (url : String) (now : ℕ) :
    (touchEntry c url now).length = c.length := by
  induction c with
  | nil => rfl
  | cons p rest ih =>
      obtain ⟨k, e⟩ := p
      by_cases h : k = url <;> simp [touchEntry, h, ih]

theorem lookupEntry_mem (c : Cache) (url : String) (e : Entry)
    (h : lookupEntry c url = some e) : (url, e) ∈ c := by
  induction c with
  | nil => cases h
  | cons p rest ih =>
      obtain ⟨k, e0⟩ := p
      by_cases hk : k = url
      · rw [lookupEntry, if_pos hk] at h
        cases h
        cases hk
        exact List.mem_cons_self _ _
      · rw [lookupEntry, if_neg hk] at h
        exact List.mem_cons_of_mem _ (ih h)

theorem foldl_pick_mem (b : String × Entry) (l : List (String × Entry)) :
    l.foldl (fun best q => if q.2.lastAccessed < best.2.lastAccessed then q else best) b = b ∨
      l.foldl (fun best q => if q.2.lastAccessed < best.2.lastAccessed then q else best) b ∈ l := by
  induction l generalizing b with
  | nil => exact Or.inl rfl
  | cons q rest ih =>
      simp only [List.foldl_cons]
      rcases ih (if q.2.lastAccessed < b.2.lastAccessed then q else b) with h | h
      · rw [h]
        by_cases hq : q.2.lastAccessed < b.2.lastAccessed
        · rw [if_pos hq]
          exact Or.inr (List.mem_cons_self _ _)
        · rw [if_neg hq]
          exact Or.inl rfl
      · exact Or.inr (List.mem_cons_of_mem _ h)

theorem foldl_pick_le (b : String × Entry) (l : List (String × Entry)) :
    (l.foldl (fun best q => if q.2.lastAccessed < best.2.lastAccessed then q else best)
        b).2.lastAccessed ≤ b.2.lastAccessed ∧
      ∀ q ∈ l,
        (l.foldl (fun best q => if q.2.lastAccessed < best.2.lastAccessed then q else best)
            b).2.lastAccessed ≤ q.2.lastAccessed := by
  induction l generalizing b with
  | nil => exact ⟨le_refl _, by intro q hq; cases hq⟩
  | cons q rest ih =>
      simp only [List.foldl_cons]
      obtain ⟨h1, h2⟩ := ih (if q.2.lastAccessed < b.2.lastAccessed then q else b)
      have hb : (if q.2.lastAccessed < b.2.lastAccessed then q else b).2.lastAccessed
          ≤ b.2.lastAccessed := by
        by_cases hq : q.2.lastAccessed < b.2.lastAccessed
        · rw [if_pos hq]; exact Nat.le_of_lt hq
        · rw [if_neg hq]
      have hq' : (if q.2.lastAccessed < b.2.lastAccessed then q else b).2.lastAccessed
          ≤ q.2.lastAccessed := by
        by_cases hq : q.2.lastAccessed < b.2.lastAccessed
        · rw [if_pos hq]
        · rw [if_neg hq]; exact Nat.le_of_not_lt hq
      refine ⟨le_trans h1 hb, ?_⟩
      intro p hp
      rcases List.mem_cons.mp hp with rfl | hp'
      · exact le_trans h1 hq'
      · exact h2 p hp'

theorem oldestEntry_spec (c : Cache) (hc : c ≠ []) :
    ∃ p, oldestEntry c = some p ∧ p ∈ c ∧
      ∀ q ∈ c, p.2.lastAccessed ≤ q.2.lastAccessed := by
  match c with
  | [] => exact absurd rfl hc
  | b :: rest =>
      refine ⟨_, rfl, ?_, ?_⟩
      · rcases foldl_pick_mem b rest with h | h
        · rw [h]; exact List.mem_cons_self _ _
        · exact List.mem_cons_of_mem _ h
      · intro q hq
        obtain ⟨h1, h2⟩ := foldl_pick_le b rest
        rcases List.mem_cons.mp hq with rfl | hq'
        · exact h1
        · exact h2 q hq'

theorem eraseKey_length (c : Cache) (k : String) (e : Entry)
    (h : (k, e) ∈ c) : (eraseKey c k).length + 1 = c.length := by
  induction c with
  | nil => cases h
  | cons p rest ih =>
      obtain ⟨k0, e0⟩ := p
      by_cases hk : k0 = k
      · simp [eraseKey, hk]
      · rw [eraseKey, if_neg hk]
        rcases List.mem_cons.mp h with heq | hmem
        · cases heq; exact absurd rfl hk
        · simp only [List.length_cons]
          rw [← ih hmem]

/-- C9: `getModelData` preserves the invariant that the cache holds at most
`MAX_CACHE_SIZE = 10` entries, and when a new entry is inserted into a cache
already holding 10 entries, exactly one entry — one with the smallest
`lastAccessed` timestamp — is removed first, leaving the cache at 10
entries. -/
theorem getModelData_cache_invariant (c : Cache) (url : String) (now data : ℕ)
    (hle : c.length ≤ MAX_CACHE_SIZE) :
    (getModelData url now data c).1.length ≤ MAX_CACHE_SIZE ∧
      (c.length = MAX_CACHE_SIZE → lookupEntry c url = Option.none →
        ∃ p, p ∈ c ∧ (∀ q ∈ c, p.2.lastAccessed ≤ q.2.lastAccessed) ∧
          manageCacheSize c = eraseKey c p.1 ∧
          (getModelData url now data c).1.length = MAX_CACHE_SIZE) := by
  cases hlook : lookupEntry c url with
  | some e =>
      refine ⟨?_, ?_⟩
      · simp only [getModelData, hlook, touchEntry_length]
        exact hle
      · intro _ hnone
        cases hnone
  | none =>
      by_cases hfull : c.length < MAX_CACHE_SIZE
      · refine ⟨?_, ?_⟩
        · simp only [getModelData, hlook, manageCacheSize, if_pos hfull,
            List.length_append, List.length_cons, List.length_nil]
          omega
        · intro hsz _
          rw [hsz] at hfull
          exact absurd hfull (lt_irrefl _)
      · have hsz : c.length = MAX_CACHE_SIZE := le_antisymm hle (Nat.le_of_not_lt hfull)
        have hne : c ≠ [] := by
          intro h0
          rw [h0] at hsz
          cases hsz
        obtain ⟨p, hold, hmem, hminimal⟩ := oldestEntry_spec c hne
        have hmanage : manageCacheSize c = eraseKey c p.1 := by
          rw [manageCacheSize, if_neg hfull, hold]
        have hlen : (eraseKey c p.1).length + 1 = c.length :=
          eraseKey_length c p.1 p.2 hmem
        have hout : (getModelData url now data c).1.length = MAX_CACHE_SIZE := by
          simp only [getModelData, hlook, hmanage, List.length_append,
            List.length_cons, List.length_nil]
          omega
        exact ⟨le_of_eq hout, fun _ _ => ⟨p, hmem, hminimal, hmanage, hout⟩⟩

/-- C9 (witness): the invariant theorem applied to a concrete full cache of
10 entries and a fresh URL: the oldest entry is evicted and the cache stays
at 10 entries. -/
theorem getModelData_cache_invariant_witness :
    (getModelData "k" 50 7
        [("a", ⟨0, 20⟩), ("b", ⟨1, 19⟩), ("c", ⟨2, 18⟩), ("d", ⟨3, 17⟩),
         ("e", ⟨4, 16⟩), ("f", ⟨5, 15⟩), ("g", ⟨6, 14⟩), ("h", ⟨7, 13⟩),
         ("i", ⟨8, 12⟩), ("j", ⟨9, 11⟩)]).1.length ≤ MAX_CACHE_SIZE :=
  (getModelData_cache_invariant
    [("a", ⟨0, 20⟩), ("b", ⟨1, 19⟩), ("c", ⟨2, 18⟩), ("d", ⟨3, 17⟩),
     ("e", ⟨4, 16⟩), ("f", ⟨5, 15⟩), ("g", ⟨6, 14⟩), ("h", ⟨7, 13⟩),
     ("i", ⟨8, 12⟩), ("j", ⟨9, 11⟩)] "k" 50 7 (by decide)).1

end ModelCache

/-! ## Claim about `resetModelTransform` (C10) -/

theorem p5_pinchMove_initialScale (z : Part005.ZoomState) (d : ℚ) :
    (Part005.pinchMove z d).initialScale = z.initialScale := by
  simp only [Part005.pinchMove]
  by_cases hd : 0 < z.lastDistance <;> simp [hd]

theorem p5_step_initialScale (s : Part005.State) (e : TouchEvt) :
    (Part005.step s e).zoom.initialScale = s.zoom.initialScale := by
  cases e with
  | grant2 d => rfl
  | grant1 now => rfl
  | move2 d => simp [Part005.step, p5_pinchMove_initialScale]
  | move1 dx dy now =>
      simp only [Part005.step, Part005.moveOneFinger]
      cases Part005.resolveMode s dx dy now <;> rfl
  | release => rfl

theorem p5_run_initialScale (s : Part005.State) (evs : List TouchEvt) :
    (Part005.run s evs).zoom.initialScale = s.zoom.initialScale := by
  induction evs generalizing s with
  | nil => rfl
  | cons e rest ih => exact (ih (Part005.step s e)).trans (p5_step_initialScale s e)

/-- C10: after any sequence of rotate, pan, and pinch events,
`resetModelTransform` restores the same canonical state as a reset applied
immediately: model position `(0,0,0)`, model rotation `(0,0,0)`, model scale
equal to the `initialScale` recorded at normalization, zero pan and rotation
accumulators, and `lastPinchDistance` `0` — because no gesture step ever
changes `initialScale`, the only state the reset depends on. -/
theorem resetModelTransform_canonical (s : Part005.State) (evs : List TouchEvt) :
    Part005.canonicalPart (Part005.resetModelTransform (Part005.run s evs)) =
        Part005.canonicalPart (Part005.resetModelTransform s) ∧
      Part005.canonicalPart (Part005.resetModelTransform s) =
        (⟨0, 0, 0⟩, ⟨0, 0, 0⟩, s.zoom.initialScale, ⟨0, 0⟩, ⟨0, 0⟩,
          ⟨s.zoom.initialScale, 0, s.zoom.initialScale⟩) := by
  refine ⟨?_, rfl⟩
  simp [Part005.canonicalPart, Part005.resetModelTransform, p5_run_initialScale]
